import Mathlib

/-!
# Verification of the agentswarm orchestration substrate

A shallow embedding, in Lean 4, of the parts of the `agentswarm` repository
(`src/orchestrator.py`, `src/agents/worker.py`, `src/agents/reconciler_agent.py`,
`src/config.py`) that the specification's claims are about, together with
theorems settling each claim.

Modelling conventions:
* a SQLite row of the `tasks` table is a `Task` record; the table is a `DB := List Task`
  in insertion (`id` autoincrement) order;
* `CURRENT_TIMESTAMP` and `started_at`/`completed_at` values are integers supplied
  as explicit `now` parameters;
* a SQL `UPDATE ... WHERE` is a `List.map` guarded by the `WHERE` predicate, and its
  `rowcount` is the number of rows matched;
* Python string slicing `s[:n]` is `pyStrTake s n`;
* operations that can raise return `Except String`; a Python `AttributeError` on a
  missing `config` attribute is modelled through `configLookup`, whose domain is
  exactly the set of names `src/config.py` defines;
* `time.time()` values in the rate limiter are rationals (`ℚ`).
-/

namespace AgentSwarm

/-- Python `s[:n]`: the first `n` characters of `s`. -/
def pyStrTake (s : String) (n : Nat) : String :=
  (s.toList.take n).asString

/-- A row of the `tasks` table (schema from `orchestrator.py`, `_init_db`).
`depends_on` is stored parsed (the source stores `json.dumps` of the list). -/
structure Task where
  task_id : String
  title : String
  description : String
  status : String
  priority : Int
  retries : Int
  depends_on : List String
  assigned_worker : Option String
  branch_name : Option String
  result : Option String
  error : Option String
  created_at : Int
  started_at : Option Int
  completed_at : Option Int
deriving Repr, DecidableEq

/-- The `tasks` table, in autoincrement (insertion) order. -/
abbrev DB := List Task

/-- A freshly inserted row: `INSERT INTO tasks (task_id, title, description,
priority, depends_on)` with the schema's defaults for the other columns. -/
def mkRow (task_id title description : String) (priority : Int)
    (depends_on : List String) (created_at : Int) : Task :=
  { task_id := task_id
    title := title
    description := description
    status := "pending"
    priority := priority
    retries := 0
    depends_on := depends_on
    assigned_worker := none
    branch_name := none
    result := none
    error := none
    created_at := created_at
    started_at := none
    completed_at := none }

/-- `TaskQueue.add_task`: generates `task_id = f"task-{uuid.uuid4().hex[:8]}"`
and inserts a `pending` row.  The uuid hex digest is passed in as `uuidHex`
(the only nondeterminism).  Returns the new table and the generated id. -/
def add_task (db : DB) (uuidHex : String) (title description : String)
    (priority : Int) (depends_on : List String) (now : Int) : DB × String :=
  let task_id := "task-" ++ pyStrTake uuidHex 8
  (db ++ [mkRow task_id title description priority depends_on now], task_id)

/-- The `ORDER BY priority ASC, created_at ASC` ordering used by
`get_ready_tasks`. -/
def readyLE (a b : Task) : Prop :=
  a.priority < b.priority ∨ (a.priority = b.priority ∧ a.created_at ≤ b.created_at)

instance : DecidableRel readyLE := fun a b => by
  unfold readyLE; exact inferInstance

/-- The inner dependency query of `get_ready_tasks`:
`SELECT COUNT(*) FROM tasks WHERE task_id IN (deps) AND status != 'done'`.
A dependency id with no row in the table contributes nothing to the count. -/
def depsNotDoneCount (db : DB) (deps : List String) : Nat :=
  (db.filter (fun r => deps.contains r.task_id && !(r.status == "done"))).length

/-- `TaskQueue.get_ready_tasks`: snapshot the `pending` rows ordered by
`(priority ASC, created_at ASC)`, keep those with no dependencies or whose
not-`done` dependency count is zero. -/
def get_ready_tasks (db : DB) : List Task :=
  let pending := (db.filter (fun r => r.status == "pending")).insertionSort readyLE
  pending.filter (fun r => r.depends_on.isEmpty || depsNotDoneCount db r.depends_on == 0)

/-- Branch name computed at claim time: `f"agent-{task_id[:8]}"`. -/
def branchName (task_id : String) : String :=
  "agent-" ++ pyStrTake task_id 8

/-- Branch name recomputed by `WorkerAgent.commit_and_merge`
(`branch_name = f"agent-{task_id[:8]}"`, worker.py line 230). -/
def commitBranch (task_id : String) : String :=
  "agent-" ++ pyStrTake task_id 8

/-- The conditional claim `UPDATE tasks SET status='running', assigned_worker=?,
branch_name=?, started_at=CURRENT_TIMESTAMP WHERE task_id=? AND status='pending'`.
Returns the updated table and the `rowcount`. -/
def claimUpdate (db : DB) (worker branch task_id : String) (now : Int) :
    DB × Nat :=
  (db.map (fun r =>
      if r.task_id == task_id && r.status == "pending" then
        { r with status := "running", assigned_worker := some worker,
                 branch_name := some branch, started_at := some now }
      else r),
   (db.filter (fun r => r.task_id == task_id && r.status == "pending")).length)

/-- `TaskQueue.claim_task`.  The source reads the ready snapshot through one set
of connections and then issues the conditional `UPDATE` on another, so other
processes may commit in between: `dbSnap` is the table `get_ready_tasks` saw and
`dbNow` the table the `UPDATE` runs against.  The source takes `ready_tasks[0]`
only; if its update matches no row it returns `None` without trying any later
candidate. -/
def claim_task (dbSnap dbNow : DB) (worker : String) (now : Int) :
    DB × Option (Task × String) :=
  match get_ready_tasks dbSnap with
  | [] => (dbNow, none)
  | t :: _ =>
    let branch := branchName t.task_id
    let (db', n) := claimUpdate dbNow worker branch t.task_id now
    if n == 0 then (dbNow, none) else (db', some (t, branch))

/-- Modelled from the spec: the claim loop of §4.2 ("For each candidate, in
order, attempt a conditional update ... If `rows_affected == 1`, return the
task; otherwise continue"; "If no candidate wins, return `None`").  Used only
to compare with `claim_task`, which is translated from the source. -/
def claimLoopSpec (candidates : List Task) (dbNow : DB) (worker : String)
    (now : Int) : DB × Option (Task × String) :=
  match candidates with
  | [] => (dbNow, none)
  | t :: rest =>
    let branch := branchName t.task_id
    let (db', n) := claimUpdate dbNow worker branch t.task_id now
    if n == 0 then claimLoopSpec rest dbNow worker now else (db', some (t, branch))

/-- Modelled from the spec: `claim` per §4.2 — snapshot the ordered ready list,
then run the candidate loop. -/
def claim_task_spec (dbSnap dbNow : DB) (worker : String) (now : Int) :
    DB × Option (Task × String) :=
  claimLoopSpec (get_ready_tasks dbSnap) dbNow worker now

/-- `TaskQueue.complete_task`: `UPDATE tasks SET status=?, result=?,
completed_at=CURRENT_TIMESTAMP WHERE task_id=?`.  The `WHERE` clause tests the
`task_id` only — no condition on the current status or assigned worker. -/
def complete_task (db : DB) (task_id result status : String) (now : Int) : DB :=
  db.map (fun r =>
    if r.task_id == task_id then
      { r with status := status, result := some result, completed_at := some now }
    else r)

/-- `TaskQueue.fail_task`: `UPDATE tasks SET status='pending', error=?,
retries=retries+1, started_at=NULL WHERE task_id=?`. -/
def fail_task (db : DB) (task_id error : String) : DB :=
  db.map (fun r =>
    if r.task_id == task_id then
      { r with status := "pending", error := some error, retries := r.retries + 1,
               started_at := none }
    else r)

/-- `TaskQueue.mark_fix_needed`: `UPDATE tasks SET status='fix_needed', error=?,
completed_at=CURRENT_TIMESTAMP WHERE task_id=?`. -/
def mark_fix_needed (db : DB) (task_id error : String) (now : Int) : DB :=
  db.map (fun r =>
    if r.task_id == task_id then
      { r with status := "fix_needed", error := some error, completed_at := some now }
    else r)

/-! ## Configuration module (`src/config.py`) -/

/-- The integer-valued attributes `src/config.py` defines at module level,
with their defaults (`MAX_WORKERS=15`, `MAX_TASKS=100`, `RECONCILER_INTERVAL=120`,
`WORKER_TIMEOUT=300`, `MAX_RETRIES=3`, `API_RATE_LIMIT_RPM=20`).
Any other name is **not** an attribute of the module. -/
def configIntDefault (name : String) : Option Int :=
  match name with
  | "MAX_WORKERS" => some 15
  | "MAX_TASKS" => some 100
  | "RECONCILER_INTERVAL" => some 120
  | "WORKER_TIMEOUT" => some 300
  | "MAX_RETRIES" => some 3
  | "API_RATE_LIMIT_RPM" => some 20
  | _ => none

/-- Python attribute access `config.<name>` for the integer knobs: the value
comes from the environment (`env`) when set, else the default; accessing a name
the module does not define raises `AttributeError`, modelled as `none`. -/
def configIntAttr (env : String → Option Int) (name : String) : Option Int :=
  match configIntDefault name with
  | none => none
  | some d => some ((env name).getD d)

/-! ## Reconciler (`src/agents/reconciler_agent.py`) -/

/-- One entry of the list `check_stalled_workers` builds. -/
structure StalledInfo where
  task_id : String
  title : String
  worker_id : Option String
  elapsed : Int
deriving Repr, DecidableEq

/-- A row of `agent_log` as written by `log_event`. -/
structure LogEvent where
  worker_id : String
  task_id : String
  event : String
  message : String
deriving Repr, DecidableEq

/-- `ReconcilerAgent.check_stalled_workers`.  The source's first statement is
`timeout_secs = config.WORKER_TIMEOUT_SECONDS`; `src/config.py` defines
`WORKER_TIMEOUT`, not `WORKER_TIMEOUT_SECONDS`, so this attribute access is an
`AttributeError` before any row is examined.  The rest of the body (select the
`running` rows, keep those with `now - started_at > timeout_secs`) is embedded
for completeness. -/
def check_stalled_workers (env : String → Option Int) (db : DB) (now : Int) :
    Except String (List StalledInfo) :=
  match configIntAttr env "WORKER_TIMEOUT_SECONDS" with
  | none => .error "AttributeError: module config has no attribute WORKER_TIMEOUT_SECONDS"
  | some timeout_secs =>
    .ok ((db.filter (fun r => r.status == "running")).filterMap (fun r =>
      match r.started_at with
      | none => none
      | some s =>
        if now - s > timeout_secs then
          some ⟨r.task_id, r.title, r.assigned_worker, now - s⟩
        else none))

/-- The loop body of `handle_fix_needed`: for each selected `fix_needed` row,
`add_task(title=f"Fix: {title}", description=f"Fix the issue: {error}",
priority=1)`, then `complete_task(task_id, f"Replaced by {new_task_id}",
"replaced")`, then log `fix_created`.  `uuids` supplies the uuid hex digests
consumed by `add_task`, starting at index `k`. -/
def handleFixLoop (uuids : Nat → String) (now : Int) :
    List Task → DB → Nat → DB × List LogEvent × Nat
  | [], db, _ => (db, [], 0)
  | r :: rest, db, k =>
    let errStr := match r.error with | some e => e | none => "None"
    let (db1, newId) := add_task db (uuids k) ("Fix: " ++ r.title)
        ("Fix the issue: " ++ errStr) 1 [] now
    let db2 := complete_task db1 r.task_id ("Replaced by " ++ newId) "replaced" now
    let (db3, evs, n) := handleFixLoop uuids now rest db2 (k + 1)
    (db3, ⟨"reconciler", r.task_id, "fix_created", "Created " ++ newId ++ " to fix"⟩ :: evs,
     n + 1)

/-- `ReconcilerAgent.handle_fix_needed`: snapshot the rows in status
`fix_needed`, then run the loop.  Returns the new table, the events logged and
the `fixed` counter. -/
def handle_fix_needed (uuids : Nat → String) (db : DB) (now : Int) :
    DB × List LogEvent × Nat :=
  handleFixLoop uuids now (db.filter (fun r => r.status == "fix_needed")) db 0

/-- The stall-sweep loop of `run_once`: log a `stalled` event and `fail_task`
each stalled entry.  (The Python `f"{elapsed:.0f}"` float formatting is
rendered with `toString` on the integer elapsed time.) -/
def stallLoop (db : DB) : List StalledInfo → DB × List LogEvent
  | [] => (db, [])
  | s :: rest =>
    let wname := match s.worker_id with | some w => w | none => "None"
    let db' := fail_task db s.task_id ("Stalled after " ++ toString s.elapsed ++ "s")
    let (db'', evs) := stallLoop db' rest
    (db'', ⟨"reconciler", s.task_id, "stalled", "Worker " ++ wname ++ " stalled"⟩ :: evs)

/-- `ReconcilerAgent.run_once`: the compile sweep (its subprocess outcome is the
external input `checkOk`/`checkOutput`), then the stall sweep, then the rework
sweep.  Any exception propagates (there is no handler in `run_once`), so the
`AttributeError` from `check_stalled_workers` aborts the sweep before
`handle_fix_needed` runs.  Returns the new table, the logged events, the
stalled list and the `fixes_created` counter. -/
def run_once (env : String → Option Int) (checkOk : Bool) (checkOutput : String)
    (uuids : Nat → String) (db : DB) (now : Int) :
    Except String (DB × List LogEvent × List StalledInfo × Nat) :=
  let (db1, evs1) :=
    if checkOk then (db, ([] : List LogEvent))
    else
      let (d, _) := add_task db (uuids 0) "Fix Python syntax errors"
          ("Fix syntax errors: " ++ pyStrTake checkOutput 500) 1 [] now
      (d, [⟨"reconciler", "syntax", "error", pyStrTake checkOutput 200⟩])
  match check_stalled_workers env db1 now with
  | .error e => .error e
  | .ok stalled =>
    let (db2, evs2) := stallLoop db1 stalled
    let (db3, evs3, fixes) := handle_fix_needed (fun k => uuids (k + 1)) db2 now
    .ok (db3, evs1 ++ evs2 ++ evs3, stalled, fixes)

/-! ## Worker file writing (`src/agents/worker.py`, `write_files`) -/

/-- A `{path, content}` entry of the parsed worker payload. -/
structure PyFile where
  path : String
  content : String
deriving Repr, DecidableEq

/-- Is `pre` a leading segment of `hay`? (kernel-computable version of
`List.isPrefixOf`). -/
def leadsWith (pre hay : List Char) : Bool :=
  match pre, hay with
  | [], _ => true
  | _ :: _, [] => false
  | a :: as, b :: bs => a == b && leadsWith as bs

/-- `String.startsWith`, by structural recursion on the character lists. -/
def beginsWith (s pre : String) : Bool :=
  leadsWith pre.toList s.toList

/-- `String.endsWith`, by structural recursion on the reversed character
lists. -/
def finishesWith (s suffixStr : String) : Bool :=
  leadsWith suffixStr.toList.reverse s.toList.reverse

/-- `pathlib`'s `/` operator: joining an absolute right operand discards the
left operand entirely; otherwise the components are concatenated. -/
def pathJoin (workspace p : String) : String :=
  if beginsWith p "/" then p else workspace ++ "/" ++ p

/-- Does `syntax_check` dispatch to a subprocess for this path?  The source
checks `file_path.suffix` against `.py`, `.js`, `.ts`, `.jsx`, `.tsx`, `.sh`. -/
def knownCheckedSuffix (path : String) : Bool :=
  finishesWith path ".py" || finishesWith path ".js" || finishesWith path ".ts" ||
  finishesWith path ".jsx" || finishesWith path ".tsx" || finishesWith path ".sh"

/-- `WorkerAgent.syntax_check`: files with an unrecognized extension pass
unconditionally; for the recognized extensions the verdict is the external
subprocess outcome `subprocessOk`. -/
def syntaxCheckFile (subprocessOk : String → Bool) (path : String) : Bool :=
  if knownCheckedSuffix path then subprocessOk path else true

/-- `WorkerAgent.write_files`: for each entry, skip an empty `path`, otherwise
write `f.content` at `self.workspace / path` (creating parents) and append
`path` to `written`; raise if the post-write check fails.  There is **no**
validation of `path` before the write.  Returns the list of performed writes
(target, content) in order, and either the `written` list or the raised error
(writes performed before the raise are kept). -/
def write_files (subprocessOk : String → Bool) (workspace : String) :
    List PyFile → List (String × String) × Except String (List String)
  | [] => ([], .ok [])
  | f :: rest =>
    if f.path == "" then write_files subprocessOk workspace rest
    else
      let target := pathJoin workspace f.path
      if syntaxCheckFile subprocessOk target then
        let (ws, res) := write_files subprocessOk workspace rest
        ((target, f.content) :: ws,
         match res with
         | .ok l => .ok (f.path :: l)
         | .error e => .error e)
      else
        ([(target, f.content)], .error ("Syntax check failed for " ++ f.path))

/-- Split a character list on `/`, accumulating the current component in
reverse (the semantics of `String.splitOn "/"`). -/
def splitSlashAux (acc : List Char) : List Char → List (List Char)
  | [] => [acc.reverse]
  | c :: rest =>
    if c == '/' then acc.reverse :: splitSlashAux [] rest
    else splitSlashAux (c :: acc) rest

/-- Split a path on `/`. -/
def splitPath (p : String) : List String :=
  (splitSlashAux [] p.toList).map List.asString

/-- POSIX normalization of a component list, `acc` holding the kept components
in reverse: `.` and empty components vanish; `..` pops (at the root it stays at
the root). -/
def normComponents (acc : List String) : List String → List String
  | [] => acc.reverse
  | c :: rest =>
    if c == "" || c == "." then normComponents acc rest
    else if c == ".." then normComponents (acc.drop 1) rest
    else normComponents (c :: acc) rest

/-- Resolve an absolute path: interpret `.` and `..` components. -/
def resolveAbs (p : String) : String :=
  "/" ++ String.intercalate "/" (normComponents [] (splitPath p))

/-- Is the resolved target inside the workspace directory? -/
def insideWorkspace (workspace target : String) : Bool :=
  let w := resolveAbs workspace
  let t := resolveAbs target
  t == w || beginsWith t (w ++ "/")

/-! ## Cross-process rate limiter (`src/agents/worker.py`, `_throttle_for_rate_limit`)

The state file holds a JSON list of `time.time()` stamps, modelled as `List ℚ`.
One `throttleStep` is one lock-held critical section: prune stamps older than
60 s; if at least `rpm` remain, write nothing (the caller releases the lock and
sleeps — a later retry is a later `throttleStep`); otherwise persist the pruned
list with `now` appended (a granted reservation).  `granted` accumulates the
reservation stamps for specification purposes. -/

/-- `rpm = max(1, int(getattr(config, "API_RATE_LIMIT_RPM", 20)))`. -/
def rlEffectiveRpm (rpmCfg : Int) : Nat := max 1 rpmCfg.toNat

/-- `timestamps = [t for t in timestamps if now - float(t) < 60.0]`. -/
def rlPrune (now : ℚ) (ts : List ℚ) : List ℚ := ts.filter (fun t => now - t < 60)

/-- Rate-limiter state: the state file's stamp list, plus the log of granted
reservation stamps. -/
structure RLState where
  file : List ℚ
  granted : List ℚ

/-- One lock-held read-modify-write of `_throttle_for_rate_limit`. -/
def throttleStep (rpm : Nat) (now : ℚ) (s : RLState) : RLState :=
  let live := rlPrune now s.file
  if rpm ≤ live.length then s
  else { file := live ++ [now], granted := s.granted ++ [now] }

/-- A run of the limiter from an empty state file: `times` lists the instants
at which callers (all processes together) enter the critical section. -/
def throttleRun (rpm : Nat) (times : List ℚ) : RLState :=
  times.foldl (fun s t => throttleStep rpm t s) ⟨[], []⟩

/-! ## Worker response parsing (`src/agents/worker.py`, `parse_response`)

`parse_response` is pure string manipulation plus `json.loads`.  JSON values
are modelled by `JVal`; `jsonLoadsChars` is a fuel-based parser for the JSON
fragment without floats, exponents and string escapes (it answers `none` —
`JSONDecodeError` — outside that fragment).  Braces are written `Char.ofNat`. -/

/-- The character `U+007B`. -/
def lbrace : Char := Char.ofNat 123

/-- The character `U+007D`. -/
def rbrace : Char := Char.ofNat 125

/-- Python `\s` on ASCII input: space, tab, newline, carriage return,
vertical tab, form feed. -/
def isPyWs (c : Char) : Bool :=
  c == ' ' || c == '\t' || c == '\n' || c == '\r' || c == '\x0b' || c == '\x0c'

/-- Python `str.strip()`. -/
def pyStripChars (cs : List Char) : List Char :=
  ((cs.dropWhile isPyWs).reverse.dropWhile isPyWs).reverse

/-- Is `needle` a leading segment of `hay`? -/
def matchesAt (needle hay : List Char) : Bool :=
  match needle, hay with
  | [], _ => true
  | _ :: _, [] => false
  | a :: as, b :: bs => a == b && matchesAt as bs

/-- Index of the first occurrence of `needle` in the haystack, if any. -/
def findSub (needle : List Char) : List Char → Option Nat
  | [] => if matchesAt needle [] then some 0 else none
  | c :: t => if matchesAt needle (c :: t) then some 0 else (findSub needle t).map (· + 1)

/-- `re.sub(r'<think>.*?</think>', '', s, flags=re.DOTALL)`: repeatedly delete
the segment from the first `<think>` to the first following `</think>`,
resuming after the deleted segment. -/
def stripThinkAux (fuel : Nat) (cs : List Char) : List Char :=
  match fuel with
  | 0 => cs
  | fuel + 1 =>
    match findSub "<think>".toList cs with
    | none => cs
    | some i =>
      let pre := cs.take i
      let rest := cs.drop (i + 7)
      match findSub "</think>".toList rest with
      | none => cs
      | some j => pre ++ stripThinkAux fuel (rest.drop (j + 8))

/-- The matched group of `re.search(r'\x60\x60\x60(?:json)?\s*([\s\S]*?)\x60\x60\x60', s)`:
content between the first fence (after an optional literal `json` and greedy
whitespace) and the next fence; no match when no closing fence exists. -/
def fenceGroup (cs : List Char) : Option (List Char) :=
  match findSub "\x60\x60\x60".toList cs with
  | none => none
  | some i =>
    let rest := cs.drop (i + 3)
    let rest1 := if matchesAt "json".toList rest then rest.drop 4 else rest
    let rest2 := rest1.dropWhile isPyWs
    match findSub "\x60\x60\x60".toList rest2 with
    | none => none
    | some j => some (rest2.take j)

/-- A JSON value (the fragment relevant here: no floats). -/
inductive JVal where
  | jnull : JVal
  | jbool : Bool → JVal
  | jnum : Int → JVal
  | jstr : String → JVal
  | jarr : List JVal → JVal
  | jobj : List (String × JVal) → JVal
deriving Repr

/-- Parse a JSON string body after the opening quote (no escape sequences in
the modelled fragment). -/
def parseJStrAux : List Char → Option (List Char × List Char)
  | [] => none
  | c :: rest =>
    if c == '"' then some ([], rest)
    else if c == '\\' then none
    else (parseJStrAux rest).map (fun p => (c :: p.1, p.2))

/-- Greedily take decimal digits. -/
def parseDigitsAux : List Char → List Char × List Char
  | [] => ([], [])
  | c :: rest =>
    if c.isDigit then
      let (d, r) := parseDigitsAux rest
      (c :: d, r)
    else ([], c :: rest)

/-- Decimal digit list to `Nat`. -/
def digitsToNat (ds : List Char) : Nat :=
  ds.foldl (fun a c => a * 10 + (c.toNat - 48)) 0

/-- Does the remainder start a float/exponent continuation (outside the
modelled fragment)? -/
def numCont : List Char → Bool
  | [] => false
  | c :: _ => c == '.' || c == 'e' || c == 'E'

mutual

/-- Parse one JSON value (fuel-bounded recursive descent). -/
def parseJVal : Nat → List Char → Option (JVal × List Char)
  | 0, _ => none
  | fuel + 1, cs0 =>
    let cs := cs0.dropWhile isPyWs
    match cs with
    | [] => none
    | c :: rest =>
      if c == lbrace then parseJObjItems fuel rest
      else if c == '[' then parseJArrItems fuel rest
      else if c == '"' then (parseJStrAux rest).map (fun p => (JVal.jstr p.1.asString, p.2))
      else if c == '-' then
        let (ds, r) := parseDigitsAux rest
        if ds.isEmpty || numCont r then none
        else some (JVal.jnum (-(digitsToNat ds : Int)), r)
      else if c.isDigit then
        let (ds, r) := parseDigitsAux cs
        if numCont r then none else some (JVal.jnum (digitsToNat ds), r)
      else if matchesAt "true".toList cs then some (JVal.jbool true, cs.drop 4)
      else if matchesAt "false".toList cs then some (JVal.jbool false, cs.drop 5)
      else if matchesAt "null".toList cs then some (JVal.jnull, cs.drop 4)
      else none

/-- Parse array items right after `[` (possibly the empty array). -/
def parseJArrItems : Nat → List Char → Option (JVal × List Char)
  | 0, _ => none
  | fuel + 1, cs0 =>
    let cs := cs0.dropWhile isPyWs
    match cs with
    | [] => none
    | c :: rest =>
      if c == ']' then some (JVal.jarr [], rest)
      else
        match parseJVal fuel cs with
        | none => none
        | some (v, r) =>
          match parseJArrMore fuel r with
          | none => none
          | some (vs, r2) => some (JVal.jarr (v :: vs), r2)

/-- After an array item: either `]`, or `,` and a further item. -/
def parseJArrMore : Nat → List Char → Option (List JVal × List Char)
  | 0, _ => none
  | fuel + 1, cs0 =>
    let cs := cs0.dropWhile isPyWs
    match cs with
    | [] => none
    | c :: rest =>
      if c == ']' then some ([], rest)
      else if c == ',' then
        match parseJVal fuel rest with
        | none => none
        | some (v, r) =>
          match parseJArrMore fuel r with
          | none => none
          | some (vs, r2) => some (v :: vs, r2)
      else none

/-- Parse object members right after the opening brace (possibly empty). -/
def parseJObjItems : Nat → List Char → Option (JVal × List Char)
  | 0, _ => none
  | fuel + 1, cs0 =>
    let cs := cs0.dropWhile isPyWs
    match cs with
    | [] => none
    | c :: rest =>
      if c == rbrace then some (JVal.jobj [], rest)
      else if c == '"' then
        match parseJStrAux rest with
        | none => none
        | some (k, r) =>
          match (r.dropWhile isPyWs) with
          | ':' :: r2 =>
            match parseJVal fuel r2 with
            | none => none
            | some (v, r3) =>
              match parseJObjMore fuel r3 with
              | none => none
              | some (kvs, r4) => some (JVal.jobj ((k.asString, v) :: kvs), r4)
          | _ => none
      else none

/-- After an object member: either the closing brace, or `,` and a further
member. -/
def parseJObjMore : Nat → List Char → Option (List (String × JVal) × List Char)
  | 0, _ => none
  | fuel + 1, cs0 =>
    let cs := cs0.dropWhile isPyWs
    match cs with
    | [] => none
    | c :: rest =>
      if c == rbrace then some ([], rest)
      else if c == ',' then
        match (rest.dropWhile isPyWs) with
        | '"' :: r =>
          match parseJStrAux r with
          | none => none
          | some (k, r1) =>
            match (r1.dropWhile isPyWs) with
            | ':' :: r2 =>
              match parseJVal fuel r2 with
              | none => none
              | some (v, r3) =>
                match parseJObjMore fuel r3 with
                | none => none
                | some (kvs, r4) => some ((k.asString, v) :: kvs, r4)
            | _ => none
        | _ => none
      else none

end

/-- `json.loads` on the modelled fragment: parse one value, allow surrounding
whitespace, demand full consumption; `none` is `JSONDecodeError`. -/
def jsonLoadsChars (cs : List Char) : Option JVal :=
  match parseJVal (4 * cs.length + 4) cs with
  | none => none
  | some (v, rest) => if (rest.dropWhile isPyWs).isEmpty then some v else none

/-- The degenerate result `{"files": [], "summary": cleaned[:500],
"tokens_estimate": 500}`. -/
def degenerateResult (cleaned : List Char) : JVal :=
  JVal.jobj [("files", JVal.jarr []),
             ("summary", JVal.jstr (cleaned.take 500).asString),
             ("tokens_estimate", JVal.jnum 500)]

/-- `if isinstance(result, list): result = result[0] if result else \x7b\x7d`. -/
def unwrapResult : JVal → JVal
  | JVal.jarr [] => JVal.jobj []
  | JVal.jarr (x :: _) => x
  | v => v

/-- The `cleaned` string of `parse_response`: strip think tags, `strip()`,
then replace by the stripped fenced group when a fence matches. -/
def cleanedOf (response : String) : List Char :=
  let c1 := stripThinkAux response.length response.toList
  let c2 := pyStripChars c1
  match fenceGroup c2 with
  | some g => pyStripChars g
  | none => c2

/-- The index `json_match` after the reassignment dance:
`json_match = cleaned.find('['); brace_match = cleaned.find(...)`;
if `json_match == -1` or a brace comes first, use `brace_match`. -/
def bracketIdx (cs : List Char) : Option Nat :=
  let jm := cs.findIdx? (fun c => c == '[')
  let bm := cs.findIdx? (fun c => c == lbrace)
  match jm, bm with
  | none, b => b
  | some j, some b => if b < j then some b else some j
  | some j, none => some j

/-- `WorkerAgent.parse_response`: clean the response; find the first bracket;
parse the suffix as JSON, unwrapping a list to its first element; on
`JSONDecodeError` or when no bracket exists, return the degenerate result. -/
def parse_response (response : String) : JVal :=
  let cleaned := cleanedOf response
  match bracketIdx cleaned with
  | none => degenerateResult cleaned
  | some i =>
    match jsonLoadsChars (cleaned.drop i) with
    | some v => unwrapResult v
    | none => degenerateResult cleaned

/-- Does a `JVal` object carry the key `k`? -/
def jvalHasKey (v : JVal) (k : String) : Bool :=
  match v with
  | JVal.jobj kvs => kvs.any (fun p => p.1 == k)
  | _ => false

/-! ## Concrete fixtures used by the closed theorems -/

/-- A plain pending task. -/
def taskA : Task := mkRow "task-aaaa1111" "A" "descA" 5 [] 1

/-- A second plain pending task, inserted later. -/
def taskB : Task := mkRow "task-bbbb2222" "B" "descB" 5 [] 2

/-- A pending task whose single listed dependency id exists nowhere in the
table. -/
def taskDangling : Task := mkRow "task-cccc3333" "C" "descC" 5 ["ghost-id"] 3

/-- Snapshot table for the claim race: `A` and `B` both pending. -/
def dbSnapRace : DB := [taskA, taskB]

/-- Table at `UPDATE` time: another worker has already moved `A` to
`running`; `B` is still pending. -/
def dbNowRace : DB :=
  [{ taskA with status := "running", assigned_worker := some "w2",
                branch_name := some "agent-task-aaa", started_at := some 9 },
   taskB]

/-- A table holding one `fix_needed` task (a merge-conflict casualty). -/
def dbFixNeeded : DB :=
  [{ taskA with status := "fix_needed", error := some "Merge conflict",
                completed_at := some 20 }]

/-! # Theorems settling the claims -/

/-- **C10** (helper facts packaged with hypotheses): a `pending` task every one
of whose listed dependency ids matches no row of the table has a not-`done`
dependency count of zero and appears in `get_ready_tasks`. -/
theorem C10_dangling_dependency_claimable (db : DB) (t : Task)
    (ht : t ∈ db) (hp : t.status = "pending")
    (hd : ∀ d ∈ t.depends_on, ∀ r ∈ db, r.task_id ≠ d) :
    depsNotDoneCount db t.depends_on = 0 ∧ t ∈ get_ready_tasks db := by
  have hcount : depsNotDoneCount db t.depends_on = 0 := by
    unfold depsNotDoneCount
    rw [List.length_eq_zero, List.filter_eq_nil_iff]
    intro r hr
    simp only [Bool.and_eq_true, Bool.not_eq_true', beq_eq_false_iff_ne, ne_eq,
      List.contains_iff_exists_mem_beq, not_and, not_exists]
    intro hmem
    exfalso
    obtain ⟨d, hdmem, hbeq⟩ := hmem
    exact hd d hdmem r hr (eq_of_beq hbeq)
  refine ⟨hcount, ?_⟩
  unfold get_ready_tasks
  rw [List.mem_filter]
  constructor
  · rw [List.mem_insertionSort, List.mem_filter]
    exact ⟨ht, by simp [hp]⟩
  · simp [hcount]

/-- **C10 witness**: a concrete table where the only task lists the dangling
dependency `ghost-id` and is nevertheless ready. -/
theorem C10_witness :
    depsNotDoneCount [taskDangling] ["ghost-id"] = 0 ∧
    taskDangling ∈ get_ready_tasks [taskDangling] :=
  C10_dangling_dependency_claimable [taskDangling] taskDangling
    (by decide) (by decide) (by decide)

/-- **C1 counterexample**: with snapshot `[A, B]` (both pending) and an
`UPDATE`-time table where another worker already claimed `A`, the source's
`claim_task` returns `None`, even though candidate `B` is in the snapshot and
its conditional update would affect one row (as the spec's candidate loop
demonstrates by returning `B`).  This refutes "the loop continues to the next
candidate" and "None is returned only when no candidate's update succeeds". -/
theorem C1_counterexample :
    (claim_task dbSnapRace dbNowRace "w1" 10).2 = none ∧
    get_ready_tasks dbSnapRace = [taskA, taskB] ∧
    (claimUpdate dbNowRace "w1" (branchName taskB.task_id) taskB.task_id 10).2 = 1 ∧
    ((claim_task_spec dbSnapRace dbNowRace "w1" 10).2.map (fun p => p.1.task_id))
      = some "task-bbbb2222" := by
  refine ⟨?_, ?_, ?_, ?_⟩ <;> decide

/-- **C1 amended**: `claim_task` behaves exactly as the spec's candidate loop
restricted to the *first* element of the ready snapshot — it never falls
through to a later candidate. -/
theorem C1_amended_first_candidate_only (dbSnap dbNow : DB) (w : String) (now : Int) :
    claim_task dbSnap dbNow w now
      = claimLoopSpec ((get_ready_tasks dbSnap).take 1) dbNow w now := by
  unfold claim_task claimLoopSpec
  match get_ready_tasks dbSnap with
  | [] => rfl
  | t :: rest =>
    simp only [List.take_succ_cons, List.take_zero]
    rfl

/-- **C2**: evaluation of the code at the failing scenario.  Task `A` is
claimed by `w1`, the stall sweep resets it to `pending` (retries `1`), and
`w1`'s late `complete_task(A, "late", "done")` then **mutates** the post-sweep
row — status becomes `done`, `result` and `completed_at` are overwritten —
because the source's `UPDATE` is conditioned on `task_id` alone, not on
`assigned_worker`/`status='running'` as the claim asserts. -/
theorem C2_late_complete_mutates :
    ((fail_task (claim_task [taskA] [taskA] "w1" 10).1 "task-aaaa1111"
        "Stalled after 490s").map Task.status = ["pending"]) ∧
    (complete_task
        (fail_task (claim_task [taskA] [taskA] "w1" 10).1 "task-aaaa1111"
          "Stalled after 490s")
        "task-aaaa1111" "late" "done" 500).map
          (fun t => (t.status, t.result, t.completed_at))
      = [("done", some "late", some 500)] := by
  refine ⟨?_, ?_⟩ <;> decide

/-- **C3**: every stall sweep dies before examining a single row: the source's
`check_stalled_workers` begins with `timeout_secs = config.WORKER_TIMEOUT_SECONDS`,
but `src/config.py` defines `WORKER_TIMEOUT` (not `WORKER_TIMEOUT_SECONDS`), so
the attribute access raises `AttributeError` for every environment, table and
clock; consequently `run_once` aborts too, and no `stalled` event is ever
logged and no `fail_task` is ever issued by the sweep. -/
theorem C3_stall_sweep_always_raises (env : String → Option Int) (db : DB)
    (now : Int) (checkOk : Bool) (checkOutput : String) (uuids : Nat → String) :
    check_stalled_workers env db now =
      .error "AttributeError: module config has no attribute WORKER_TIMEOUT_SECONDS" ∧
    run_once env checkOk checkOutput uuids db now =
      .error "AttributeError: module config has no attribute WORKER_TIMEOUT_SECONDS" := by
  constructor
  · rfl
  · unfold run_once
    cases checkOk <;> rfl

/-- **C5**: with one `fix_needed` task on the table, `run_once` raises the
`WORKER_TIMEOUT_SECONDS` `AttributeError` in the stall sweep and never reaches
the rework sweep, so no `Fix:` task is created and the original stays
`fix_needed`.  Had `handle_fix_needed` been reached, it would have done exactly
what the claim says: one new `pending` task titled `Fix: A`, description
`Fix the issue: Merge conflict`, priority `1`, the original `replaced`, and a
`fix_created` event — shown here by invoking it directly. -/
theorem C5_sweep_crashes_before_rework :
    run_once (fun _ => none) true "" (fun _ => "cafe0001") dbFixNeeded 50 =
      .error "AttributeError: module config has no attribute WORKER_TIMEOUT_SECONDS" ∧
    (handle_fix_needed (fun _ => "cafe0001") dbFixNeeded 50).1 =
      [{ taskA with status := "replaced", error := some "Merge conflict",
                    result := some "Replaced by task-cafe0001",
                    completed_at := some 50 },
       mkRow "task-cafe0001" "Fix: A" "Fix the issue: Merge conflict" 1 [] 50] ∧
    (handle_fix_needed (fun _ => "cafe0001") dbFixNeeded 50).2.1 =
      [⟨"reconciler", "task-aaaa1111", "fix_created", "Created task-cafe0001 to fix"⟩] ∧
    (handle_fix_needed (fun _ => "cafe0001") dbFixNeeded 50).2.2 = 1 := by
  refine ⟨rfl, ?_, ?_, ?_⟩ <;> decide

/-- **C7 counterexample**: a task already `done` with result `"r"` at
timestamp `10`; a second `complete(t, "r", done)` at clock `20` raises no
error but **does** change the stored state — `completed_at` is overwritten
with the new `CURRENT_TIMESTAMP`.  This falsifies "changes no field of the
task's stored state (including completed_at)". -/
theorem C7_counterexample :
    ((complete_task
        [{ taskA with status := "done", result := some "r", completed_at := some 10 }]
        "task-aaaa1111" "r" "done" 20).map Task.completed_at = [some 20]) ∧
    complete_task
        [{ taskA with status := "done", result := some "r", completed_at := some 10 }]
        "task-aaaa1111" "r" "done" 20 ≠
      [{ taskA with status := "done", result := some "r", completed_at := some 10 }] := by
  refine ⟨?_, ?_⟩ <;> decide

/-- **C7 amended**: when every row carrying `task_id` is already `done` with
result `r`, a second `complete(t, r, done)` raises no error and rewrites
`status` and `result` with the values they already hold — the only field that
changes is `completed_at`, which is set to the current timestamp (so the state
is unchanged exactly when the clock has not advanced). -/
theorem C7_amended_only_completed_at_changes (db : DB) (tid r : String) (now : Int)
    (h : ∀ t ∈ db, t.task_id = tid → t.status = "done" ∧ t.result = some r) :
    complete_task db tid r "done" now =
      db.map (fun t =>
        if t.task_id == tid then { t with completed_at := some now } else t) := by
  unfold complete_task
  apply List.map_congr_left
  intro t htmem
  by_cases he : t.task_id = tid
  · obtain ⟨h1, h2⟩ := h t htmem he
    cases t
    simp_all
  · simp [he]

/-- **C7 amended witness**: concrete instance of the amended statement. -/
theorem C7_amended_witness :
    complete_task
        [{ taskA with status := "done", result := some "r", completed_at := some 10 }]
        "task-aaaa1111" "r" "done" 20 =
      [{ taskA with status := "done", result := some "r", completed_at := some 20 }] := by
  have := C7_amended_only_completed_at_changes
    [{ taskA with status := "done", result := some "r", completed_at := some 10 }]
    "task-aaaa1111" "r" 20 (by decide)
  rw [this]
  decide

/-- **C9 counterexample**: for the task id `task-1a2b3c4d` (as generated by
`add_task`: `task-` plus 8 uuid hex digits), the branch recorded at claim time
is `agent-task-1a2` — `"agent-"` followed by the first 8 **characters** of the
id, which include the `task-` human prefix and are not 8 hex digits — and not
`agent-1a2b3c4d` as the claim's "first 8 hex characters" reading demands. -/
theorem C9_counterexample :
    branchName "task-1a2b3c4d" = "agent-task-1a2" ∧
    branchName "task-1a2b3c4d" ≠ "agent-1a2b3c4d" ∧
    ¬ (pyStrTake "task-1a2b3c4d" 8).toList.all (fun c =>
        c.isDigit || ('a' ≤ c && c ≤ 'f') || ('A' ≤ c && c ≤ 'F')) := by
  refine ⟨?_, ?_, ?_⟩ <;> decide

/-- The id generated by `add_task` starts with the literal `task-` followed by
the first 8 characters of the uuid hex digest, so its 8-character slice is
`task-` plus the first 3 hex characters. -/
theorem pyStrTake_generated_id (uuidHex : String) :
    pyStrTake ("task-" ++ pyStrTake uuidHex 8) 8 = "task-" ++ pyStrTake uuidHex 3 := by
  unfold pyStrTake
  rw [List.asString_eq]
  have h1 : ("task-" ++ (uuidHex.toList.take 8).asString).toList
      = "task-".toList ++ uuidHex.toList.take 8 := by
    simp [String.toList, String.data_append, List.asString]
  have h2 : ("task-" ++ (uuidHex.toList.take 3).asString).toList
      = "task-".toList ++ uuidHex.toList.take 3 := by
    simp [String.toList, String.data_append, List.asString]
  rw [h1, h2]
  have h5 : "task-".toList.length = 5 := by decide
  have h8 : (8 : Nat) = "task-".toList.length + 3 := by rw [h5]
  rw [h8, List.take_append, List.take_take, h5]
  norm_num

/-- **C9 amended**: the branch name recorded at claim time for a task created
by `add_task` is `"agent-"` followed by the first 8 characters of the task id
— that is, `agent-task-` plus the first 3 hex digits of the uuid — and
`commit_and_merge` recomputes exactly the same deterministic name from the
task id. -/
theorem C9_amended_branch_shape (db : DB) (uuidHex title desc : String)
    (priority : Int) (deps : List String) (now : Int) :
    branchName (add_task db uuidHex title desc priority deps now).2
      = "agent-task-" ++ pyStrTake uuidHex 3 ∧
    commitBranch (add_task db uuidHex title desc priority deps now).2
      = branchName (add_task db uuidHex title desc priority deps now).2 := by
  constructor
  · show branchName ("task-" ++ pyStrTake uuidHex 8) = _
    unfold branchName
    rw [pyStrTake_generated_id]
    rw [show ("agent-task-" : String) = "agent-" ++ "task-" from rfl,
      String.append_assoc]
  · rfl

/-- **C4**: evaluation of the code at the failing inputs.  `write_files`
performs no validation of the entry's `path`: for `path = "../evil.txt"` it
writes `<workspace>/../evil.txt`, which resolves to `/evil.txt` — outside the
workspace `/ws` — and reports success; for the absolute `path = "/etc/evil.txt"`
the `pathlib` join discards the workspace entirely and the write lands at
`/etc/evil.txt`.  The subprocess verdict `subprocessOk` is irrelevant: `.txt`
is not a checked suffix.  This contradicts the claim (and the spec's
"implementation must reject `..`/absolute paths"). -/
theorem C4_write_files_escapes_workspace (subprocessOk : String → Bool) :
    (write_files subprocessOk "/ws" [⟨"../evil.txt", "x"⟩]).1
      = [("/ws/../evil.txt", "x")] ∧
    (write_files subprocessOk "/ws" [⟨"../evil.txt", "x"⟩]).2 = .ok ["../evil.txt"] ∧
    resolveAbs "/ws/../evil.txt" = "/evil.txt" ∧
    insideWorkspace "/ws" "/ws/../evil.txt" = false ∧
    (write_files subprocessOk "/ws" [⟨"/etc/evil.txt", "x"⟩]).1
      = [("/etc/evil.txt", "x")] ∧
    insideWorkspace "/ws" "/etc/evil.txt" = false := by
  refine ⟨rfl, rfl, ?_, ?_, rfl, ?_⟩ <;> decide

/-- **C8 counterexample**: on the response `{"a": 1}` the JSON parse succeeds
and `parse_response` returns the parsed object **as-is** — it carries none of
the keys `files`, `summary`, `tokens_estimate`; on the response `[1, 2]` it
returns the number `1`, not an object at all.  This refutes "returns an object
normalized to the keys \x7bfiles, summary, tokens_estimate\x7d". -/
theorem C8_counterexample :
    parse_response "\x7b\"a\": 1\x7d" = JVal.jobj [("a", JVal.jnum 1)] ∧
    jvalHasKey (parse_response "\x7b\"a\": 1\x7d") "files" = false ∧
    jvalHasKey (parse_response "\x7b\"a\": 1\x7d") "summary" = false ∧
    jvalHasKey (parse_response "\x7b\"a\": 1\x7d") "tokens_estimate" = false ∧
    parse_response "[1, 2]" = JVal.jnum 1 := by
  refine ⟨rfl, rfl, rfl, rfl, rfl⟩

/-- **C8 amended**: `parse_response` never raises: when no bracket is found,
or the JSON parse fails (`JSONDecodeError`), it returns the degenerate result
`\x7bfiles: [], summary: cleaned[:500], tokens_estimate: 500\x7d`; when the
parse succeeds it returns the parsed value unchanged (first element if a
list, `\x7b\x7d` if an empty list) — with no key normalization. -/
theorem C8_amended_no_raise_fallback (response : String) :
    (bracketIdx (cleanedOf response) = none →
      parse_response response = degenerateResult (cleanedOf response)) ∧
    (∀ i, bracketIdx (cleanedOf response) = some i →
      jsonLoadsChars ((cleanedOf response).drop i) = none →
      parse_response response = degenerateResult (cleanedOf response)) ∧
    (∀ i v, bracketIdx (cleanedOf response) = some i →
      jsonLoadsChars ((cleanedOf response).drop i) = some v →
      parse_response response = unwrapResult v) := by
  refine ⟨?_, ?_, ?_⟩
  · intro h
    simp only [parse_response]
    rw [h]
  · intro i h hl
    simp only [parse_response]
    rw [h]
    simp [hl]
  · intro i v h hl
    simp only [parse_response]
    rw [h]
    simp [hl]

/-- **C8 amended witness**: all three branches at concrete responses — a
response with no JSON, a response with a broken JSON suffix, a response with a
well-formed JSON array. -/
theorem C8_amended_witness :
    parse_response "no json here at all" = degenerateResult (cleanedOf "no json here at all") ∧
    parse_response "x [1, oops" = degenerateResult (cleanedOf "x [1, oops") ∧
    parse_response " [5] " = unwrapResult (JVal.jarr [JVal.jnum 5]) :=
  ⟨(C8_amended_no_raise_fallback "no json here at all").1 rfl,
   (C8_amended_no_raise_fallback "x [1, oops").2.1 2 rfl rfl,
   (C8_amended_no_raise_fallback " [5] ").2.2 0 (JVal.jarr [JVal.jnum 5]) rfl rfl⟩

/-! ## Rate-limiter invariant (C6) -/

/-- The limiter invariant at observation time `m`: every granted stamp still
inside the window is recorded in the state file, and the file's in-window
count is at most `rpm`. -/
def RLGoodAt (rpm : Nat) (m : ℚ) (s : RLState) : Prop :=
  (rlPrune m s.granted).Sublist (rlPrune m s.file) ∧ (rlPrune m s.file).length ≤ rpm

/-- Pruning at a later instant refines pruning at an earlier one. -/
theorem rlPrune_rlPrune {m n : ℚ} (h : m ≤ n) (l : List ℚ) :
    rlPrune n (rlPrune m l) = rlPrune n l := by
  unfold rlPrune
  rw [List.filter_filter]
  apply List.filter_congr
  intro a _
  by_cases hn : n - a < 60
  · have hm : m - a < 60 := by linarith
    simp [hn, hm]
  · simp [hn]

/-- The invariant is monotone in the observation time. -/
theorem RLGoodAt.mono {rpm : Nat} {m n : ℚ} (h : m ≤ n) {s : RLState}
    (hg : RLGoodAt rpm m s) : RLGoodAt rpm n s := by
  obtain ⟨h1, h2⟩ := hg
  constructor
  · have h3 : (rlPrune n (rlPrune m s.granted)).Sublist (rlPrune n (rlPrune m s.file)) :=
      List.Sublist.filter _ h1
    rwa [rlPrune_rlPrune h, rlPrune_rlPrune h] at h3
  · calc (rlPrune n s.file).length
        = (rlPrune n (rlPrune m s.file)).length := by rw [rlPrune_rlPrune h]
      _ ≤ (rlPrune m s.file).length := List.length_filter_le _ _
      _ ≤ rpm := h2

/-- One critical section taken at instant `n` preserves the invariant at `n`:
in the wait branch nothing changes; in the grant branch the persisted list is
the pruned list plus the fresh stamp, whose in-window length was below `rpm`
before the append. -/
theorem throttleStep_preserves {rpm : Nat} {n : ℚ} {s : RLState}
    (hg : RLGoodAt rpm n s) : RLGoodAt rpm n (throttleStep rpm n s) := by
  obtain ⟨h1, h2⟩ := hg
  unfold throttleStep
  by_cases hc : rpm ≤ (rlPrune n s.file).length
  · simp only [hc, if_true]
    exact ⟨h1, h2⟩
  · simp only [hc, if_false]
    have hidem : rlPrune n (rlPrune n s.file) = rlPrune n s.file :=
      rlPrune_rlPrune le_rfl _
    have hsingle : rlPrune n [n] = [n] := by
      unfold rlPrune
      norm_num
    have e1 : rlPrune n (s.granted ++ [n]) = rlPrune n s.granted ++ [n] := by
      unfold rlPrune at hsingle ⊢
      rw [List.filter_append, hsingle]
    have e2 : rlPrune n (rlPrune n s.file ++ [n]) = rlPrune n s.file ++ [n] := by
      unfold rlPrune at hsingle hidem ⊢
      rw [List.filter_append, hsingle, hidem]
    constructor
    · show (rlPrune n (s.granted ++ [n])).Sublist (rlPrune n (rlPrune n s.file ++ [n]))
      rw [e1, e2]
      exact List.Sublist.append h1 (List.Sublist.refl [n])
    · show (rlPrune n (rlPrune n s.file ++ [n])).length ≤ rpm
      rw [e2, List.length_append]
      simp only [List.length_singleton]
      omega

/-- Folding the limiter over a nondecreasing sequence of instants bounded by
`w` preserves the invariant, observed at `w`. -/
theorem throttleFold_good (rpm : Nat) (ts : List ℚ) : ∀ (s : RLState) (m w : ℚ),
    ts.Pairwise (· ≤ ·) → (∀ t ∈ ts, m ≤ t) → (∀ t ∈ ts, t ≤ w) → m ≤ w →
    RLGoodAt rpm m s →
    RLGoodAt rpm w (ts.foldl (fun s t => throttleStep rpm t s) s) := by
  induction ts with
  | nil =>
    intro s m w _ _ _ hmw hg
    exact RLGoodAt.mono hmw hg
  | cons t rest ih =>
    intro s m w hp hm hw hmw hg
    simp only [List.foldl_cons]
    have hmt : m ≤ t := hm t (by simp)
    have hgt : RLGoodAt rpm t s := RLGoodAt.mono hmt hg
    have hstep := throttleStep_preserves hgt
    have hp' := List.pairwise_cons.mp hp
    exact ih _ t w hp'.2 (fun r hr => hp'.1 r hr)
      (fun r hr => hw r (by simp [hr])) (hw t (by simp)) hstep

/-- `foldr min` gives a lower bound of the list and the seed. -/
theorem foldr_min_bounds (l : List ℚ) (w : ℚ) :
    l.foldr min w ≤ w ∧ ∀ t ∈ l, l.foldr min w ≤ t := by
  induction l with
  | nil => simp
  | cons a rest ih =>
    refine ⟨le_trans (min_le_right _ _) ih.1, ?_⟩
    intro t ht
    rcases List.mem_cons.mp ht with h | h
    · subst h; exact min_le_left _ _
    · exact le_trans (min_le_right _ _) (ih.2 t h)

/-- **C6**: across all processes sharing the state file (every critical
section is one `throttleStep`, serialized by the `flock`), a run over any
nondecreasing sequence of lock-acquisition instants grants at most
`RPM = max(1, API_RATE_LIMIT_RPM)` reservations whose stamps lie in the
rolling 60-second window ending at any instant `w` at or after the run: a
caller finding `rpm` or more live stamps appends nothing, so the live granted
count never exceeds `RPM`. -/
theorem C6_rate_limit_window (rpmCfg : Int) (times : List ℚ) (w : ℚ)
    (hmono : times.Pairwise (· ≤ ·)) (hw : ∀ t ∈ times, t ≤ w) (hcfg : 1 ≤ rpmCfg) :
    (rlPrune w (throttleRun (rlEffectiveRpm rpmCfg) times).granted).length
      ≤ rpmCfg.toNat := by
  have hb := foldr_min_bounds times w
  have hbase : RLGoodAt (rlEffectiveRpm rpmCfg) (times.foldr min w) ⟨[], []⟩ := by
    constructor
    · simp [rlPrune]
    · simp [rlPrune]
  have hgood := throttleFold_good (rlEffectiveRpm rpmCfg) times ⟨[], []⟩
    (times.foldr min w) w hmono hb.2 hw hb.1 hbase
  obtain ⟨h1, h2⟩ := hgood
  have hlen : (rlPrune w (throttleRun (rlEffectiveRpm rpmCfg) times).granted).length
      ≤ (rlPrune w (throttleRun (rlEffectiveRpm rpmCfg) times).file).length :=
    List.Sublist.length_le h1
  have hrpm : rlEffectiveRpm rpmCfg = rpmCfg.toNat := by
    unfold rlEffectiveRpm
    have : 1 ≤ rpmCfg.toNat := by omega
    omega
  rw [hrpm] at hlen h2 ⊢
  exact le_trans hlen h2

/-- **C6 witness**: three callers at instants `0, 1, 2` with `RPM = 2` and the
window observed at `2`. -/
theorem C6_witness :
    (rlPrune 2 (throttleRun (rlEffectiveRpm 2) [0, 1, 2]).granted).length
      ≤ (2 : Int).toNat :=
  C6_rate_limit_window 2 [0, 1, 2] 2 (by decide) (by decide) (by decide)

end AgentSwarm
